import Mathlib

/-!
Shallow embedding of the bifrost RPC routing layer (`src/rpc/mod.rs`),
the connection pool, and the `raft!` state-machine dispatch macro
(`src/raft/mod.rs`), with theorems settling the specification claims
about envelopes, the service registry, the shortcut registry, the
client pool, and the macro expansion.

Bytes on the wire are modelled as `Nat` (a `u8` value); byte vectors as
`List Nat`.  Fallible Rust code returns `Except`; a Rust panic is
modelled as `Option.none`.
-/

namespace Bifrost

/-- The enum `RPCRequestError` from src/rpc/mod.rs. -/
inductive RPCRequestError : Type where
  | FunctionIdNotFound : RPCRequestError
  | ServiceIdNotFound : RPCRequestError
  | Other : RPCRequestError
deriving DecidableEq, Repr

/-- An opaque `io::Error` value: only its presence matters to the RPC layer. -/
structure IOErr : Type where
  code : Nat
deriving DecidableEq, Repr

/-- The enum `RPCError` from src/rpc/mod.rs. -/
inductive RPCError : Type where
  | IOError : IOErr → RPCError
  | RequestError : RPCRequestError → RPCError
deriving DecidableEq, Repr

/-- The function `encode_res(res: Result<Vec<u8>, RPCRequestError>) -> Vec<u8>`:
on `Ok(vec)` the byte `0` is prepended to `vec`; on `Err(e)` the result is the
single byte `1` for `FunctionIdNotFound`, `2` for `ServiceIdNotFound`, and
`255` for anything else. -/
def encode_res (res : Except RPCRequestError (List Nat)) : List Nat :=
  match res with
  | Except.ok vec => 0 :: vec
  | Except.error e =>
      match e with
      | RPCRequestError.FunctionIdNotFound => [1]
      | RPCRequestError.ServiceIdNotFound => [2]
      | _ => [255]

/-- The function `decode_res(res: io::Result<Vec<u8>>) -> Result<Vec<u8>, RPCError>`:
on a transport error, wrap it as `IOError`; otherwise inspect `res[0]`
(a panic when `res` is empty, modelled as `none`): `0` yields `Ok` of the
remaining bytes, `1`/`2` the corresponding `RequestError`, and any other
byte `RequestError(Other)`. -/
def decode_res (res : Except IOErr (List Nat)) :
    Option (Except RPCError (List Nat)) :=
  match res with
  | Except.error e => some (Except.error (RPCError.IOError e))
  | Except.ok [] => none
  | Except.ok (b :: rest) =>
      if b = 0 then
        some (Except.ok rest)
      else
        match b with
        | 1 => some (Except.error (RPCError.RequestError RPCRequestError.FunctionIdNotFound))
        | 2 => some (Except.error (RPCError.RequestError RPCRequestError.ServiceIdNotFound))
        | _ => some (Except.error (RPCError.RequestError RPCRequestError.Other))

/-- A response-envelope byte vector is valid when its first byte is one of
the four status bytes and error envelopes carry no payload. -/
def validResEnvelope (b : List Nat) : Prop :=
  match b with
  | [] => False
  | s :: rest => (s = 0) ∨ ((s = 1 ∨ s = 2 ∨ s = 255) ∧ rest = [])

instance (b : List Nat) : Decidable (validResEnvelope b) := by
  unfold validResEnvelope
  match b with
  | [] => exact inferInstance
  | s :: rest => exact inferInstance

/-- Re-encode the outcome of `decode_res`: a decoded payload or request
error is passed back through `encode_res`; a transport (`IOError`) outcome
or a panic has no envelope. -/
def reencode_res (d : Option (Except RPCError (List Nat))) : Option (List Nat) :=
  match d with
  | some (Except.ok v) => some (encode_res (Except.ok v))
  | some (Except.error (RPCError.RequestError e)) => some (encode_res (Except.error e))
  | some (Except.error (RPCError.IOError _)) => none
  | none => none

/-- A registered RPC service, reduced to what the router sees of the trait
`RPCService`: its `dispatch(data: Vec<u8>) -> Result<Vec<u8>, RPCRequestError>`
function. -/
structure Service : Type where
  dispatch : List Nat → Except RPCRequestError (List Nat)

/-- The `HashMap<u64, Arc<RPCService>>` service registry, modelled
extensionally as a partial map from service ids to services. -/
def ServiceMap : Type := Nat → Option Service

/-- `HashMap::get` on the registry. -/
def ServiceMap.get (m : ServiceMap) (id : Nat) : Option Service := m id

/-- `HashMap::insert` on the registry: the new binding replaces any old
binding for the same key, all other keys are untouched. -/
def ServiceMap.insert (m : ServiceMap) (id : Nat) (s : Service) : ServiceMap :=
  fun k => if k = id then some s else m k

/-- `HashMap::remove` on the registry: the key is unbound, all other keys
are untouched. -/
def ServiceMap.remove (m : ServiceMap) (id : Nat) : ServiceMap :=
  fun k => if k = id then none else m k

/-- Modelled from the spec: `utils::u8vec::u8_vec_to_u64`-style
reassembly used by `extract_u64_head`, which is not under src/; per the
spec the service id is an endian-fixed 8-byte integer. -/
def u64_from_le_bytes (bs : List Nat) : Nat :=
  bs.reverse.foldl (fun acc b => acc * 256 + b % 256) 0

/-- Modelled from the spec: `utils::u8vec::extract_u64_head` is not under
src/; per the spec the first 8 bytes of a request are the fixed-width
service id and the remainder is the service payload. -/
def extract_u64_head (data : List Nat) : Nat × List Nat :=
  (u64_from_le_bytes (data.take 8), data.drop 8)

/-- Modelled from the spec: `utils::u8vec::prepend_u64` is not under src/;
per the spec the client prepends the fixed-width 8-byte service id to the
service payload. -/
def prepend_u64 (num : Nat) (data : List Nat) : List Nat :=
  ((List.range 8).map (fun i => num / 256 ^ i % 256)) ++ data

/-- The `Server` struct from src/rpc/mod.rs, reduced to the state the
routing claims depend on: its service registry. -/
structure Server : Type where
  services : ServiceMap

/-- `Server::register_service`: insert the service into the registry under
the given id (the shortcut registration that precedes the insert is
modelled separately, with the shortcut registry). -/
def Server.register_service (s : Server) (service_id : Nat) (service : Service) : Server :=
  ⟨s.services.insert service_id service⟩

/-- `Server::remove_service`: unbind the id from the registry. -/
def Server.remove_service (s : Server) (service_id : Nat) : Server :=
  ⟨s.services.remove service_id⟩

/-- The request handler closure installed by `Server::listen`: split off the
leading 8-byte service id, look it up in the registry, dispatch the payload
to the service when present, and encode the outcome — or encode
`Err(ServiceIdNotFound)` when the id is unbound. -/
def Server.listen_handler (s : Server) (data : List Nat) : List Nat :=
  let p := extract_u64_head data
  match s.services.get p.1 with
  | some service => encode_res (service.dispatch p.2)
  | none => encode_res (Except.error RPCRequestError.ServiceIdNotFound)

/-- `RPCClient::send`: prepend the 8-byte service id, hand the bytes to the
transport, and pass the transport outcome through `decode_res`; the
transport is a parameter (`tcp::client::Client::send` is out of scope), and
`none` models the panic inside `decode_res`. -/
def RPCClient.send (transport : List Nat → Except IOErr (List Nat))
    (svr_id : Nat) (data : List Nat) : Option (Except RPCError (List Nat)) :=
  decode_res (transport (prepend_u64 svr_id data))

/-- The `RPCClient` struct from src/rpc/mod.rs: a shared client handle for
one remote address; `conn` is an opaque token standing for the underlying
`tcp::client::Client` connection, so distinct connections are
distinguishable. -/
structure RPCClient : Type where
  server_id : Nat
  address : String
  conn : Nat
deriving DecidableEq, Repr

/-- The `HashMap<String, Arc<RPCClient>>` held by `ClientPool`, modelled
extensionally. -/
def PoolMap : Type := String → Option RPCClient

/-- The `ClientPool` struct, reduced to its map. -/
structure ClientPool : Type where
  clients : PoolMap

/-- `ClientPool::new`: an empty map. -/
def ClientPool.new : ClientPool := ⟨fun _ => none⟩

/-- `ClientPool::get`: if the address is cached, return a clone of the
cached handle and leave the map alone; otherwise call `RPCClient::new`
(the `connect` parameter, since `tcp::client::Client::connect` is out of
scope): on success insert the new handle and return it, on failure return
the error and leave the map alone. -/
def ClientPool.get (connect : String → Except IOErr RPCClient)
    (pool : ClientPool) (addr : String) : Except IOErr RPCClient × ClientPool :=
  match pool.clients addr with
  | some c => (Except.ok c, pool)
  | none =>
      match connect addr with
      | Except.ok c => (Except.ok c, ⟨fun a => if a = addr then some c else pool.clients a⟩)
      | Except.error e => (Except.error e, pool)

/-- Modelled from the spec: the shortcut registry itself lives in the
macro-generated service code behind `RPCService::register_shortcut_service`,
which is not under src/.  Per §5 of the spec it must guarantee that a
direct handle is never invoked after its owning service is deregistered,
via a generation check before each shortcut call.  The state pairs each
registered service with the generation of its registration and keeps a
counter of generations handed out. -/
structure ShortcutState : Type where
  services : Nat → Option (Service × Nat)
  nextGen : Nat

/-- Modelled from the spec: a direct handle minted at registration time
records the target service id and the generation of that registration. -/
structure ShortcutHandle : Type where
  service_id : Nat
  gen : Nat
deriving DecidableEq, Repr

/-- Modelled from the spec: registering a service (the
`register_shortcut_service` call made by `Server::register_service`) binds
the id to the service at a fresh generation. -/
def ShortcutState.register (st : ShortcutState) (id : Nat) (s : Service) : ShortcutState :=
  ⟨fun k => if k = id then some (s, st.nextGen) else st.services k, st.nextGen + 1⟩

/-- Modelled from the spec: deregistering a service (the counterpart of
`Server::remove_service`) unbinds the id; the generation counter never
goes back. -/
def ShortcutState.remove (st : ShortcutState) (id : Nat) : ShortcutState :=
  ⟨fun k => if k = id then none else st.services k, st.nextGen⟩

/-- Modelled from the spec: a shortcut call checks, before invoking, that
the handle's service id is still bound and bound at the handle's own
generation; only then does the call reach the service's dispatch
(`none` means the call was refused and fell back without touching the
service object). -/
def ShortcutState.shortcut_call (st : ShortcutState) (h : ShortcutHandle)
    (data : List Nat) : Option (Except RPCRequestError (List Nat)) :=
  match st.services h.service_id with
  | some (s, g) => if g = h.gen then some (s.dispatch data) else none
  | none => none

/-- An operation on the shortcut registry, for reasoning over arbitrary
interleavings of registrations and removals. -/
inductive ShortcutOp : Type where
  | register : Nat → Service → ShortcutOp
  | remove : Nat → ShortcutOp

/-- Run a sequence of registry operations from a starting state. -/
def ShortcutState.run (st : ShortcutState) : List ShortcutOp → ShortcutState
  | [] => st
  | (ShortcutOp.register id s) :: rest => (st.register id s).run rest
  | (ShortcutOp.remove id) :: rest => (st.remove id).run rest

/-- Every generation stored in the registry was handed out before the
current counter value. -/
def ShortcutState.genInv (st : ShortcutState) : Prop :=
  ∀ k s g, st.services k = some (s, g) → g < st.nextGen

/-- A Rust type expression appearing in a `raft!` command declaration,
kept opaque except for the unit type `()` (the macro's default) and
`Vec<u8>` (the snapshot return type). -/
inductive Ty : Type where
  | unit : Ty
  | bytes : Ty
  | named : String → Ty
deriving DecidableEq, Repr

/-- The `qry` / `cmd` qualifier of a `raft!` declaration. -/
inductive Qualifier : Type where
  | qry : Qualifier
  | cmd : Qualifier
deriving DecidableEq, Repr

/-- One `def $smt $fn_name($arg: $in_, ...) [-> $out] [| $error];` line as
written by the user of the `raft!` macro: return type and error type are
each optional. -/
structure CommandDecl : Type where
  smt : Qualifier
  name : String
  args : List (String × Ty)
  ret : Option Ty
  err : Option Ty

/-- A declaration after the macro's four normalization arms have run: both
the return type and the error type are present. -/
structure NormCommand : Type where
  smt : Qualifier
  name : String
  args : List (String × Ty)
  out : Ty
  err : Ty

/-- The four intermediate arms of `raft!` in src/raft/mod.rs: a missing
return type becomes `()`, a missing error type becomes `()`, a
declaration with both is passed through unchanged. -/
def normalizeCommand (c : CommandDecl) : NormCommand :=
  match c.ret, c.err with
  | none, none => ⟨c.smt, c.name, c.args, Ty.unit, Ty.unit⟩
  | some o, none => ⟨c.smt, c.name, c.args, o, Ty.unit⟩
  | none, some e => ⟨c.smt, c.name, c.args, Ty.unit, e⟩
  | some o, some e => ⟨c.smt, c.name, c.args, o, e⟩

/-- A generated `sm_args::$fn_name` struct: one public field per declared
argument. -/
structure ArgsStruct : Type where
  name : String
  fields : List (String × Ty)

/-- A generated `sm_returns::$fn_name` enum: exactly the two variants
`Result($out)` and `Error($error)`. -/
structure ReturnsEnum : Type where
  name : String
  resultTy : Ty
  errorTy : Ty

/-- A generated method of the `StateMachine` trait:
`fn $fn_name(&self, args...) -> Result<$out, $error>`. -/
structure SMethod : Type where
  name : String
  args : List (String × Ty)
  out : Ty
  err : Ty

/-- Everything the final arm of `raft!` generates from a command set: the
`sm_args` module, the `sm_returns` module, the `StateMachine` trait's
per-command methods, and the trait's `snapshot(&self) -> Vec<u8>` method's
return type. -/
structure Expansion : Type where
  sm_args : List ArgsStruct
  sm_returns : List ReturnsEnum
  methods : List SMethod
  snapshotReturn : Ty

/-- The final arm of `raft!`: for each (normalized) command emit its args
struct, its response enum and its trait method, and add the single
`snapshot` method returning bytes. -/
def expandRaft (cmds : List CommandDecl) : Expansion :=
  let n := cmds.map normalizeCommand
  { sm_args := n.map (fun c => ⟨c.name, c.args⟩)
    sm_returns := n.map (fun c => ⟨c.name, c.out, c.err⟩)
    methods := n.map (fun c => ⟨c.name, c.args, c.out, c.err⟩)
    snapshotReturn := Ty.bytes }

/-! ## Helper lemmas -/

/-- The handler encodes `ServiceIdNotFound` whenever the extracted id is
unbound in the registry. -/
lemma listen_handler_of_get_none (s : Server) (data : List Nat)
    (h : s.services.get (extract_u64_head data).1 = none) :
    s.listen_handler data
      = encode_res (Except.error RPCRequestError.ServiceIdNotFound) := by
  unfold Server.listen_handler
  simp only [h]

/-- The handler dispatches to the registered service whenever the extracted
id is bound in the registry. -/
lemma listen_handler_of_get_some (s : Server) (data : List Nat) (svc : Service)
    (h : s.services.get (extract_u64_head data).1 = some svc) :
    s.listen_handler data = encode_res (svc.dispatch (extract_u64_head data).2) := by
  unfold Server.listen_handler
  simp only [h]

/-- The generation counter never decreases along a run. -/
lemma ShortcutState.run_nextGen_mono (ops : List ShortcutOp) :
    ∀ st : ShortcutState, st.nextGen ≤ (st.run ops).nextGen := by
  induction ops with
  | nil => intro st; exact Nat.le_refl _
  | cons op rest ih =>
      intro st
      cases op with
      | register id s =>
          have h := ih (st.register id s)
          exact Nat.le_trans (Nat.le_succ _) h
      | remove id =>
          exact ih (st.remove id)

/-- Any binding present after a run was either already present before the
run or was created with a generation at least the starting counter. -/
lemma ShortcutState.run_services_gen (ops : List ShortcutOp) :
    ∀ (st : ShortcutState) (k : Nat) (s : Service) (g : Nat),
      (st.run ops).services k = some (s, g) →
      st.services k = some (s, g) ∨ st.nextGen ≤ g := by
  induction ops with
  | nil => intro st k s g h; exact Or.inl h
  | cons op rest ih =>
      intro st k s g h
      cases op with
      | register id s' =>
          rcases ih (st.register id s') k s g h with h' | h'
          · unfold ShortcutState.register at h'
            by_cases hk : k = id
            · simp only [hk, if_pos rfl] at h'
              right
              have : g = st.nextGen := (Prod.mk.injEq _ _ _ _ ▸ Option.some.inj h').2.symm
              omega
            · left
              simpa only [if_neg hk] using h'
          · right
            have hn : (st.register id s').nextGen = st.nextGen + 1 := rfl
            omega
      | remove id =>
          rcases ih (st.remove id) k s g h with h' | h'
          · unfold ShortcutState.remove at h'
            by_cases hk : k = id
            · simp [hk] at h'
            · left
              simpa only [if_neg hk] using h'
          · right
            exact h'

/-- Normalization keeps the argument list. -/
lemma normalizeCommand_args (c : CommandDecl) : (normalizeCommand c).args = c.args := by
  unfold normalizeCommand
  cases c.ret <;> cases c.err <;> rfl

/-- Normalization keeps the command name. -/
lemma normalizeCommand_name (c : CommandDecl) : (normalizeCommand c).name = c.name := by
  unfold normalizeCommand
  cases c.ret <;> cases c.err <;> rfl

/-- Normalization fills a missing return type with unit. -/
lemma normalizeCommand_out (c : CommandDecl) :
    (normalizeCommand c).out = c.ret.getD Ty.unit := by
  unfold normalizeCommand
  cases c.ret <;> cases c.err <;> rfl

/-- Normalization fills a missing error type with unit. -/
lemma normalizeCommand_err (c : CommandDecl) :
    (normalizeCommand c).err = c.err.getD Ty.unit := by
  unfold normalizeCommand
  cases c.ret <;> cases c.err <;> rfl

/-- A pair drawn from zipping a mapped list with its source relates the two
components by the mapped function. -/
lemma fst_eq_of_mem_zip_map {α β : Type} (f : α → β) :
    ∀ (l : List α) (p : β × α), p ∈ (l.map f).zip l → p.1 = f p.2 := by
  intro l
  induction l with
  | nil => intro p hp; simp at hp
  | cons a t ih =>
      intro p hp
      simp only [List.map_cons, List.zip_cons_cons, List.mem_cons] at hp
      rcases hp with hp | hp
      · subst hp; rfl
      · exact ih p hp

/-! ## Claim theorems -/

/-- C1: the response envelope produced by `encode_res` is wire-exact: for
every payload `p`, `encode_res (Ok p)` is the byte 0 followed by `p`;
`encode_res (Err FunctionIdNotFound)` is exactly `[1]`;
`encode_res (Err ServiceIdNotFound)` is exactly `[2]`; `encode_res` of any
other error is exactly `[255]`; and every error envelope has length 1. -/
theorem encode_res_wire_exact :
    (∀ p : List Nat, encode_res (Except.ok p) = 0 :: p) ∧
    encode_res (Except.error RPCRequestError.FunctionIdNotFound) = [1] ∧
    encode_res (Except.error RPCRequestError.ServiceIdNotFound) = [2] ∧
    encode_res (Except.error RPCRequestError.Other) = [255] ∧
    (∀ e : RPCRequestError, (encode_res (Except.error e)).length = 1) := by
  refine ⟨fun p => rfl, rfl, rfl, rfl, fun e => ?_⟩
  cases e <;> rfl

/-- C2: for every valid response envelope `b` (first byte in {0,1,2,255},
no further bytes when the first byte is nonzero), decoding `b` with
`decode_res` and re-encoding the resulting payload or request error with
`encode_res` yields `b` again. -/
theorem encode_decode_roundtrip (b : List Nat) (hb : validResEnvelope b) :
    reencode_res (decode_res (Except.ok b)) = some b := by
  match b with
  | [] => exact absurd hb (by simp [validResEnvelope])
  | s :: rest =>
      simp only [validResEnvelope] at hb
      rcases hb with h0 | ⟨hs, hrest⟩
      · subst h0; rfl
      · subst hrest
        rcases hs with h | h | h <;> subst h <;> rfl

/-- C2 witness at envelope `[0, 7, 8]`. -/
theorem encode_decode_roundtrip_witness :
    validResEnvelope [0, 7, 8] ∧
    reencode_res (decode_res (Except.ok [0, 7, 8])) = some [0, 7, 8] :=
  ⟨Or.inl rfl, encode_decode_roundtrip [0, 7, 8] (Or.inl rfl)⟩

/-- C3: a request whose leading 8-byte service id is unbound in the
registry is answered by the handler installed by `Server::listen` with the
`ServiceIdNotFound` envelope `[2]` (status byte 2, empty payload); the
conclusion holds for every registry satisfying the lookup-miss hypothesis,
whatever its services' dispatch functions, so the payload is never
dispatched. -/
theorem listen_unknown_service_id (s : Server) (data : List Nat)
    (h : s.services.get (extract_u64_head data).1 = none) :
    s.listen_handler data = encode_res (Except.error RPCRequestError.ServiceIdNotFound) ∧
    s.listen_handler data = [2] := by
  have he := listen_handler_of_get_none s data h
  exact ⟨he, he⟩

/-- C3 witness: the empty registry and a 9-byte request. -/
theorem listen_unknown_service_id_witness :
    (Server.mk (fun _ => none)).services.get
        (extract_u64_head [1, 2, 3, 4, 5, 6, 7, 8, 9]).1 = none ∧
    (Server.mk (fun _ => none)).listen_handler [1, 2, 3, 4, 5, 6, 7, 8, 9] = [2] :=
  ⟨rfl, (listen_unknown_service_id (Server.mk (fun _ => none))
    [1, 2, 3, 4, 5, 6, 7, 8, 9] rfl).2⟩

/-- C4: after `remove_service id`, a lookup of `id` finds no service and a
request addressed to `id` yields the `ServiceIdNotFound` envelope `[2]`,
whatever was registered under `id` before. -/
theorem remove_service_visible (s : Server) (id : Nat) (data : List Nat)
    (h : (extract_u64_head data).1 = id) :
    (s.remove_service id).services.get id = none ∧
    (s.remove_service id).listen_handler data = [2] := by
  have hget : (s.remove_service id).services.get id = none := by
    simp [Server.remove_service, ServiceMap.remove, ServiceMap.get]
  refine ⟨hget, ?_⟩
  exact listen_handler_of_get_none _ _ (by rw [h]; exact hget)

/-- C4 witness: id 5, a request whose first 8 bytes encode 5, and a
registry that did bind 5. -/
theorem remove_service_visible_witness :
    (extract_u64_head [5, 0, 0, 0, 0, 0, 0, 0, 77]).1 = 5 ∧
    ((Server.mk (fun _ => some ⟨fun d => Except.ok d⟩)).remove_service 5).listen_handler
        [5, 0, 0, 0, 0, 0, 0, 0, 77] = [2] :=
  ⟨rfl, (remove_service_visible (Server.mk (fun _ => some ⟨fun d => Except.ok d⟩))
    5 [5, 0, 0, 0, 0, 0, 0, 0, 77] rfl).2⟩

/-- C5: registering `a` then `b` under the same id leaves a registry that
agrees at every key with registering only `b`, maps the id to `b`, and
dispatches requests addressed to the id through `b`, never `a`. -/
theorem register_service_last_writer_wins (s : Server) (id : Nat) (a b : Service)
    (data payload : List Nat) (h : extract_u64_head data = (id, payload)) :
    (∀ k, ((s.register_service id a).register_service id b).services.get k
        = (s.register_service id b).services.get k) ∧
    ((s.register_service id a).register_service id b).services.get id = some b ∧
    ((s.register_service id a).register_service id b).listen_handler data
        = encode_res (b.dispatch payload) := by
  have hall : ∀ k, ((s.register_service id a).register_service id b).services.get k
      = (s.register_service id b).services.get k := by
    intro k
    by_cases hk : k = id <;>
      simp [Server.register_service, ServiceMap.insert, ServiceMap.get, hk]
  have hid : ((s.register_service id a).register_service id b).services.get id = some b := by
    simp [Server.register_service, ServiceMap.insert, ServiceMap.get]
  refine ⟨hall, hid, ?_⟩
  have hfst : (extract_u64_head data).1 = id := by rw [h]
  have hsnd : (extract_u64_head data).2 = payload := by rw [h]
  rw [listen_handler_of_get_some _ _ b (by rw [hfst]; exact hid), hsnd]

/-- C5 witness: id 5, two distinguishable services, a request whose first
8 bytes encode 5 and whose payload is `[42]`. -/
theorem register_service_last_writer_wins_witness :
    extract_u64_head [5, 0, 0, 0, 0, 0, 0, 0, 42] = (5, [42]) ∧
    (((Server.mk (fun _ => none)).register_service 5
        ⟨fun _ => Except.error RPCRequestError.Other⟩).register_service 5
        ⟨fun d => Except.ok d⟩).listen_handler [5, 0, 0, 0, 0, 0, 0, 0, 42]
      = encode_res (Except.ok [42]) :=
  ⟨rfl, (register_service_last_writer_wins (Server.mk (fun _ => none)) 5
    ⟨fun _ => Except.error RPCRequestError.Other⟩ ⟨fun d => Except.ok d⟩
    [5, 0, 0, 0, 0, 0, 0, 0, 42] [42] rfl).2.2⟩

/-- C6: a shortcut direct handle is never invoked after its owning service
is deregistered: for a handle minted for the registration of `old` under
`id` at generation `g`, after removing `id` and running any further
sequence of register/remove operations, a shortcut call through that
handle is refused (`none`) — it reaches no service object, in particular
not `old`. -/
theorem shortcut_not_invoked_after_remove (st : ShortcutState) (id g : Nat)
    (old : Service) (ops : List ShortcutOp) (data : List Nat)
    (hinv : st.genInv) (hreg : st.services id = some (old, g)) :
    ((st.remove id).run ops).shortcut_call ⟨id, g⟩ data = none := by
  have hg : g < st.nextGen := hinv id old g hreg
  unfold ShortcutState.shortcut_call
  cases hsk : ((st.remove id).run ops).services (ShortcutHandle.mk id g).service_id with
  | none => rfl
  | some p =>
      obtain ⟨s', g'⟩ := p
      rcases ShortcutState.run_services_gen ops (st.remove id) id s' g' hsk with h' | h'
      · exact absurd h' (by simp [ShortcutState.remove])
      · have hne : g' ≠ (ShortcutHandle.mk id g).gen := by
          show g' ≠ g
          intro hgg
          have h2 : (st.remove id).nextGen ≤ g' := h'
          have h3 : (st.remove id).nextGen = st.nextGen := rfl
          omega
        simp only [if_neg hne]

/-- C6 witness: a registry holding one service under id 5 at generation 0;
after removal and a re-registration of a different service under the same
id, the stale handle's call is refused. -/
theorem shortcut_not_invoked_after_remove_witness :
    (ShortcutState.mk (fun k => if k = 5 then some (⟨fun d => Except.ok d⟩, 0) else none) 1).genInv ∧
    (((ShortcutState.mk (fun k => if k = 5 then some (⟨fun d => Except.ok d⟩, 0) else none) 1).remove
        5).run [ShortcutOp.register 5 ⟨fun _ => Except.error RPCRequestError.Other⟩]).shortcut_call
      ⟨5, 0⟩ [1, 2] = none := by
  have hinv : (ShortcutState.mk
      (fun k => if k = 5 then some (⟨fun d => Except.ok d⟩, 0) else none) 1).genInv := by
    intro k s g hk
    by_cases h5 : k = 5
    · simp only [h5, if_pos rfl] at hk
      have : g = 0 := ((Prod.mk.injEq _ _ _ _).mp (Option.some.inj hk)).2.symm
      show g < 1
      omega
    · simp [h5] at hk
  exact ⟨hinv, shortcut_not_invoked_after_remove _ 5 0 ⟨fun d => Except.ok d⟩ _ [1, 2] hinv
    (by simp)⟩

/-- C7: a failed connection attempt leaves the pool unchanged: when the
address is not cached and `RPCClient::new` fails with `e`, `ClientPool::get`
returns `e` and the pool map is exactly the one before the call, so a later
get for the same address consults the connector afresh. -/
theorem pool_get_failure_not_cached (connect : String → Except IOErr RPCClient)
    (pool : ClientPool) (addr : String) (e : IOErr)
    (hmiss : pool.clients addr = none) (hfail : connect addr = Except.error e) :
    ClientPool.get connect pool addr = (Except.error e, pool) ∧
    (∀ connect' : String → Except IOErr RPCClient,
      ClientPool.get connect' (ClientPool.get connect pool addr).2 addr
        = ClientPool.get connect' pool addr) := by
  have hmain : ClientPool.get connect pool addr = (Except.error e, pool) := by
    unfold ClientPool.get
    rw [hmiss, hfail]
  exact ⟨hmain, fun connect' => by rw [hmain]⟩

/-- C7 witness: the empty pool, an always-failing connector, address "a". -/
theorem pool_get_failure_not_cached_witness :
    ClientPool.new.clients "a" = none ∧
    (fun _ : String => (Except.error ⟨3⟩ : Except IOErr RPCClient)) "a" = Except.error ⟨3⟩ ∧
    ClientPool.get (fun _ => Except.error ⟨3⟩) ClientPool.new "a"
      = (Except.error ⟨3⟩, ClientPool.new) :=
  ⟨rfl, rfl, (pool_get_failure_not_cached (fun _ => Except.error ⟨3⟩)
    ClientPool.new "a" ⟨3⟩ rfl rfl).1⟩

/-- C8: once a get for an address has succeeded with handle `c`, any
subsequent get for that address returns the same shared handle `c` without
consulting the connector (the second connector is arbitrary) and leaves the
map unchanged; and a get never evicts or replaces any cached entry. -/
theorem pool_one_connection_per_address (connect connect' : String → Except IOErr RPCClient)
    (pool : ClientPool) (addr : String) (c : RPCClient)
    (hsucc : (ClientPool.get connect pool addr).1 = Except.ok c) :
    ClientPool.get connect' (ClientPool.get connect pool addr).2 addr
      = (Except.ok c, (ClientPool.get connect pool addr).2) ∧
    (∀ a c', pool.clients a = some c' →
      (ClientPool.get connect pool addr).2.clients a = some c') := by
  cases hcache : pool.clients addr with
  | some c0 =>
      have hget : ClientPool.get connect pool addr = (Except.ok c0, pool) := by
        unfold ClientPool.get
        rw [hcache]
      rw [hget] at hsucc
      have hc : c0 = c := Except.ok.inj hsucc
      subst hc
      rw [hget]
      refine ⟨?_, fun a c' h => h⟩
      unfold ClientPool.get
      rw [hcache]
  | none =>
      cases hconn : connect addr with
      | ok c0 =>
          have hget : ClientPool.get connect pool addr
              = (Except.ok c0, ⟨fun a => if a = addr then some c0 else pool.clients a⟩) := by
            unfold ClientPool.get
            rw [hcache, hconn]
          rw [hget] at hsucc
          have hc : c0 = c := Except.ok.inj hsucc
          subst hc
          rw [hget]
          constructor
          · simp [ClientPool.get]
          · intro a c' h
            have ha : a ≠ addr := fun heq => by
              rw [heq, hcache] at h
              exact Option.noConfusion h
            dsimp only
            rw [if_neg ha]
            exact h
      | error e =>
          have hget : ClientPool.get connect pool addr = (Except.error e, pool) := by
            unfold ClientPool.get
            rw [hcache, hconn]
          rw [hget] at hsucc
          exact absurd hsucc (by simp)

/-- C8 witness: the empty pool, a connector producing a concrete handle for
address "a", and a second connector that would fail if consulted. -/
theorem pool_one_connection_per_address_witness :
    (ClientPool.get (fun _ => Except.ok ⟨1, "a", 0⟩) ClientPool.new "a").1
      = Except.ok (⟨1, "a", 0⟩ : RPCClient) ∧
    ClientPool.get (fun _ => Except.error ⟨9⟩)
        (ClientPool.get (fun _ => Except.ok ⟨1, "a", 0⟩) ClientPool.new "a").2 "a"
      = (Except.ok (⟨1, "a", 0⟩ : RPCClient),
         (ClientPool.get (fun _ => Except.ok ⟨1, "a", 0⟩) ClientPool.new "a").2) :=
  ⟨rfl, (pool_one_connection_per_address (fun _ => Except.ok ⟨1, "a", 0⟩)
    (fun _ => Except.error ⟨9⟩) ClientPool.new "a" ⟨1, "a", 0⟩ rfl).1⟩

/-- C9: for every declared command set, the `raft!` expansion yields one
args struct per command whose fields are exactly the declared arguments,
one response enum per command whose `Result` variant carries the declared
return type and whose `Error` variant carries the declared error type
(each defaulting to unit when missing), one `StateMachine` method per
command returning `Result` of those same types, and a `snapshot` method
returning bytes. -/
theorem raft_macro_expansion (cmds : List CommandDecl) :
    (expandRaft cmds).sm_args.length = cmds.length ∧
    (expandRaft cmds).sm_returns.length = cmds.length ∧
    (expandRaft cmds).methods.length = cmds.length ∧
    (∀ p : ArgsStruct × CommandDecl, p ∈ (expandRaft cmds).sm_args.zip cmds →
      p.1.name = p.2.name ∧ p.1.fields = p.2.args) ∧
    (∀ p : ReturnsEnum × CommandDecl, p ∈ (expandRaft cmds).sm_returns.zip cmds →
      p.1.name = p.2.name ∧ p.1.resultTy = p.2.ret.getD Ty.unit ∧
      p.1.errorTy = p.2.err.getD Ty.unit) ∧
    (∀ p : SMethod × CommandDecl, p ∈ (expandRaft cmds).methods.zip cmds →
      p.1.name = p.2.name ∧ p.1.args = p.2.args ∧ p.1.out = p.2.ret.getD Ty.unit ∧
      p.1.err = p.2.err.getD Ty.unit) ∧
    (expandRaft cmds).snapshotReturn = Ty.bytes := by
  have hargs : (expandRaft cmds).sm_args
      = cmds.map (fun c => ⟨(normalizeCommand c).name, (normalizeCommand c).args⟩) := by
    simp [expandRaft, List.map_map, Function.comp]
  have hrets : (expandRaft cmds).sm_returns
      = cmds.map (fun c => ⟨(normalizeCommand c).name, (normalizeCommand c).out,
          (normalizeCommand c).err⟩) := by
    simp [expandRaft, List.map_map, Function.comp]
  have hms : (expandRaft cmds).methods
      = cmds.map (fun c => ⟨(normalizeCommand c).name, (normalizeCommand c).args,
          (normalizeCommand c).out, (normalizeCommand c).err⟩) := by
    simp [expandRaft, List.map_map, Function.comp]
  refine ⟨by rw [hargs, List.length_map], by rw [hrets, List.length_map],
    by rw [hms, List.length_map], ?_, ?_, ?_, rfl⟩
  · intro p hp
    rw [hargs] at hp
    have := fst_eq_of_mem_zip_map _ cmds p hp
    rw [this]
    exact ⟨normalizeCommand_name p.2, normalizeCommand_args p.2⟩
  · intro p hp
    rw [hrets] at hp
    have := fst_eq_of_mem_zip_map _ cmds p hp
    rw [this]
    exact ⟨normalizeCommand_name p.2, normalizeCommand_out p.2, normalizeCommand_err p.2⟩
  · intro p hp
    rw [hms] at hp
    have := fst_eq_of_mem_zip_map _ cmds p hp
    rw [this]
    exact ⟨normalizeCommand_name p.2, normalizeCommand_args p.2,
      normalizeCommand_out p.2, normalizeCommand_err p.2⟩

/-- C9 witness at the command set of the source's `syntax_test`:
`def qry get(key: u64) -> String | ();` and
`def cmd test(a: u32, b: u32) -> bool;`. -/
theorem raft_macro_expansion_witness :
    ((⟨"test", [("a", Ty.named "u32"), ("b", Ty.named "u32")], Ty.named "bool",
        Ty.unit⟩ : SMethod),
      (⟨Qualifier.cmd, "test", [("a", Ty.named "u32"), ("b", Ty.named "u32")],
        some (Ty.named "bool"), none⟩ : CommandDecl)) ∈
      (expandRaft
        [⟨Qualifier.qry, "get", [("key", Ty.named "u64")], some (Ty.named "String"),
          some Ty.unit⟩,
         ⟨Qualifier.cmd, "test", [("a", Ty.named "u32"), ("b", Ty.named "u32")],
          some (Ty.named "bool"), none⟩]).methods.zip
        [⟨Qualifier.qry, "get", [("key", Ty.named "u64")], some (Ty.named "String"),
          some Ty.unit⟩,
         ⟨Qualifier.cmd, "test", [("a", Ty.named "u32"), ("b", Ty.named "u32")],
          some (Ty.named "bool"), none⟩] ∧
    (⟨"test", [("a", Ty.named "u32"), ("b", Ty.named "u32")], Ty.named "bool",
        Ty.unit⟩ : SMethod).out
      = (some (Ty.named "bool")).getD Ty.unit := by
  have hmem : ((⟨"test", [("a", Ty.named "u32"), ("b", Ty.named "u32")], Ty.named "bool",
        Ty.unit⟩ : SMethod),
      (⟨Qualifier.cmd, "test", [("a", Ty.named "u32"), ("b", Ty.named "u32")],
        some (Ty.named "bool"), none⟩ : CommandDecl)) ∈
      (expandRaft
        [⟨Qualifier.qry, "get", [("key", Ty.named "u64")], some (Ty.named "String"),
          some Ty.unit⟩,
         ⟨Qualifier.cmd, "test", [("a", Ty.named "u32"), ("b", Ty.named "u32")],
          some (Ty.named "bool"), none⟩]).methods.zip
        [⟨Qualifier.qry, "get", [("key", Ty.named "u64")], some (Ty.named "String"),
          some Ty.unit⟩,
         ⟨Qualifier.cmd, "test", [("a", Ty.named "u32"), ("b", Ty.named "u32")],
          some (Ty.named "bool"), none⟩] := by
    exact List.mem_cons_of_mem _ (List.mem_cons_self _ _)
  refine ⟨hmem, ?_⟩
  exact ((raft_macro_expansion
    [⟨Qualifier.qry, "get", [("key", Ty.named "u64")], some (Ty.named "String"),
      some Ty.unit⟩,
     ⟨Qualifier.cmd, "test", [("a", Ty.named "u32"), ("b", Ty.named "u32")],
      some (Ty.named "bool"), none⟩]).2.2.2.2.2.1 _ hmem).2.2.1

/-- C10: `decode_res` is total on non-empty transport successes — `Ok` of
the tail when the first byte is 0, the matching request error otherwise,
with every status byte other than 0, 1 and 2 mapped to `Other` — but
`decode_res (Ok [])` indexes byte 0 out of bounds (a panic, modelled
`none`), so `RPCClient::send` panics whenever the transport's success
carries no bytes. -/
theorem decode_res_total_on_nonempty (b : Nat) (rest : List Nat)
    (transport : List Nat → Except IOErr (List Nat)) (svr_id : Nat) (data : List Nat)
    (htr : transport (prepend_u64 svr_id data) = Except.ok []) :
    decode_res (Except.ok (b :: rest)) =
      some (if b = 0 then Except.ok rest
            else Except.error (RPCError.RequestError
              (if b = 1 then RPCRequestError.FunctionIdNotFound
               else if b = 2 then RPCRequestError.ServiceIdNotFound
               else RPCRequestError.Other))) ∧
    decode_res (Except.ok []) = none ∧
    RPCClient.send transport svr_id data = none := by
  refine ⟨?_, rfl, ?_⟩
  · match b with
    | 0 => rfl
    | 1 => rfl
    | 2 => rfl
    | (n + 3) =>
        have h0 : ¬ (n + 3 = 0) := by omega
        have h1 : ¬ (n + 3 = 1) := by omega
        have h2 : ¬ (n + 3 = 2) := by omega
        simp only [decode_res, if_neg h0, if_neg h1, if_neg h2]
  · unfold RPCClient.send
    rw [htr]
    rfl

/-- C10 witness: status byte 7 maps to `Other`, and a transport returning
an empty success makes `send` panic. -/
theorem decode_res_total_on_nonempty_witness :
    (fun _ : List Nat => (Except.ok [] : Except IOErr (List Nat)))
        (prepend_u64 9 [4]) = Except.ok [] ∧
    decode_res (Except.ok (7 :: [6])) =
      some (if 7 = 0 then Except.ok [6]
            else Except.error (RPCError.RequestError
              (if 7 = 1 then RPCRequestError.FunctionIdNotFound
               else if 7 = 2 then RPCRequestError.ServiceIdNotFound
               else RPCRequestError.Other))) ∧
    decode_res (Except.ok []) = none ∧
    RPCClient.send (fun _ => Except.ok []) 9 [4] = none :=
  ⟨rfl, decode_res_total_on_nonempty 7 [6] (fun _ => Except.ok []) 9 [4] rfl⟩

end Bifrost
